import Mathlib

/-!
Verification development for the kube-arbitrator scheduler core:
node resource accounting (NodeInfo), the scheduling Session, and the
preempt action.  Definitions are translated from the Go sources
(pkg/scheduler/api/node_info.go, pkg/scheduler/framework session code,
and actions/preempt).  Components of the repository that are referenced
but whose code is not part of the two source files (the Resource vector,
JobInfo bookkeeping, the generic priority queue) are modelled from the
specification, and are marked as such in their doc comments.
-/

namespace KubeArb


/-- Modelled from the spec: the Resource additive vector (§3) over the
dimensions cpu and memory ("fixed-arity additive vector"; scalar
extensions are omitted, componentwise statements are unaffected).
Components are integers. -/
structure Resource where
  cpu : Int
  mem : Int
deriving DecidableEq, Repr

/-- Modelled from the spec: `EmptyResource()`. -/
def EmptyResource : Resource := { cpu := 0, mem := 0 }

/-- Modelled from the spec: `Resource.Add` (componentwise addition). -/
def Resource.Add (a b : Resource) : Resource :=
  { cpu := a.cpu + b.cpu, mem := a.mem + b.mem }

/-- Modelled from the spec: `Resource.Sub` (componentwise subtraction). -/
def Resource.Sub (a b : Resource) : Resource :=
  { cpu := a.cpu - b.cpu, mem := a.mem - b.mem }

/-- Task status enum, from the spec's status list (§3) and the statuses
named in the Go sources (Pending, Allocated, Pipelined, Binding, Bound,
Running, Releasing, Succeeded, Failed, Unknown). -/
inductive TaskStatus where
  | Pending
  | Allocated
  | Pipelined
  | Binding
  | Bound
  | Running
  | Releasing
  | Succeeded
  | Failed
  | Unknown
deriving DecidableEq, Repr

/-- TaskInfo, from §3 of the spec and the fields used by the Go sources
(UID, Job, Name, Namespace, NodeName, Resreq, Status).  The opaque Pod
reference is represented only through `PodKey`, which the sources use
purely as the stable map key; we let the key coincide with the UID. -/
structure TaskInfo where
  UID : String
  Job : String
  Name : String
  Namespace : String
  NodeName : String
  Resreq : Resource
  Status : TaskStatus
deriving DecidableEq, Repr

/-- Modelled from the spec: `PodKey(task.Pod)` derives the stable TaskID
from the cluster object; we identify it with the task's UID. -/
def PodKey (t : TaskInfo) : String := t.UID

/-- The part of a `*v1.Node` the sources read: `node.Name`,
`node.Status.Allocatable`, `node.Status.Capacity`. -/
structure V1Node where
  Name : String
  StatusAllocatable : Resource
  StatusCapacity : Resource
deriving DecidableEq, Repr

/-- NodeInfo from node_info.go.  `Node : Option V1Node` models the
possibly-nil `*v1.Node` pointer; `Tasks` models the Go map as an
association list keyed by PodKey (insertion prepends; keys are kept
unique by the guards in the operations, exactly as in the source). -/
structure NodeInfo where
  Name : String
  Node : Option V1Node
  Releasing : Resource
  Idle : Resource
  Used : Resource
  Allocatable : Resource
  Capability : Resource
  Tasks : List (String × TaskInfo)
deriving Repr

/-- `NewNodeInfo(node *v1.Node)` from node_info.go. -/
def NewNodeInfo (node : Option V1Node) : NodeInfo :=
  match node with
  | none =>
    { Name := ""
      Node := none
      Releasing := EmptyResource
      Idle := EmptyResource
      Used := EmptyResource
      Allocatable := EmptyResource
      Capability := EmptyResource
      Tasks := [] }
  | some n =>
    { Name := n.Name
      Node := some n
      Releasing := EmptyResource
      Idle := n.StatusAllocatable
      Used := EmptyResource
      Allocatable := n.StatusAllocatable
      Capability := n.StatusCapacity
      Tasks := [] }

/-- `NodeInfo.SetNode(node)` from node_info.go: on the first transition
from a nil `Node`, seed `Idle` from the node's allocatable and replay the
held tasks into the accounting vectors; in every case overwrite `Name`,
`Node`, `Allocatable`, `Capability`. -/
def NodeInfo.SetNode (ni : NodeInfo) (node : V1Node) : NodeInfo :=
  let ni :=
    if ni.Node.isNone then
      let seeded := { ni with Idle := node.StatusAllocatable }
      ni.Tasks.foldl
        (fun acc kt =>
          let task := kt.2
          let acc :=
            if task.Status = TaskStatus.Releasing then
              { acc with Releasing := acc.Releasing.Add task.Resreq }
            else acc
          { acc with
              Idle := acc.Idle.Sub task.Resreq
              Used := acc.Used.Add task.Resreq })
        seeded
    else ni
  { ni with
      Name := node.Name
      Node := some node
      Allocatable := node.StatusAllocatable
      Capability := node.StatusCapacity }

/-- `NodeInfo.PipelineTask(task)` from node_info.go: no-op if the task is
already on the node; otherwise, on a real node, move the task's request
from `Releasing` into `Used` without touching `Idle`, then record the
task. -/
def NodeInfo.PipelineTask (ni : NodeInfo) (task : TaskInfo) : NodeInfo :=
  let key := PodKey task
  if (ni.Tasks.lookup key).isSome then ni
  else
    let ni :=
      if ni.Node.isSome then
        { ni with
            Releasing := ni.Releasing.Sub task.Resreq
            Used := ni.Used.Add task.Resreq }
      else ni
    { ni with Tasks := (key, task) :: ni.Tasks }

/-- `NodeInfo.AddTask(task)` from node_info.go: no-op if the task is
already on the node; otherwise, on a real node, add to `Releasing` when
the task's status is Releasing, subtract the request from `Idle`, add it
to `Used`, then record the task. -/
def NodeInfo.AddTask (ni : NodeInfo) (task : TaskInfo) : NodeInfo :=
  let key := PodKey task
  if (ni.Tasks.lookup key).isSome then ni
  else
    let ni :=
      if ni.Node.isSome then
        let ni :=
          if task.Status = TaskStatus.Releasing then
            { ni with Releasing := ni.Releasing.Add task.Resreq }
          else ni
        { ni with
            Idle := ni.Idle.Sub task.Resreq
            Used := ni.Used.Add task.Resreq }
      else ni
    { ni with Tasks := (key, task) :: ni.Tasks }

/-- `NodeInfo.RemoveTask(ti)` from node_info.go: no-op if the task is not
on the node; otherwise, on a real node, subtract from `Releasing` when
the *stored* task's status is Releasing, return the request to `Idle`,
subtract it from `Used`, then delete the entry. -/
def NodeInfo.RemoveTask (ni : NodeInfo) (ti : TaskInfo) : NodeInfo :=
  let key := PodKey ti
  match ni.Tasks.lookup key with
  | none => ni
  | some task =>
    let ni :=
      if ni.Node.isSome then
        let ni :=
          if task.Status = TaskStatus.Releasing then
            { ni with Releasing := ni.Releasing.Sub task.Resreq }
          else ni
        { ni with
            Idle := ni.Idle.Add task.Resreq
            Used := ni.Used.Sub task.Resreq }
      else ni
    { ni with Tasks := ni.Tasks.filter (fun kt => decide (kt.1 ≠ key)) }

/-- Modelled from the spec: JobInfo (§3).  `Tasks` is the collection of
the job's tasks keyed by UID; the per-status buckets are the inverted
index over `Tasks` by `Status` (the §3 invariant makes the index fully
determined by `Tasks`, so it is represented as a derived function). -/
structure JobInfo where
  UID : String
  Name : String
  Namespace : String
  MinAvailable : Nat
  Tasks : List TaskInfo
deriving Repr

/-- Modelled from the spec: `TaskStatusIndex[s]`, the set of the job's
tasks whose status is `s` (§3: for every task T in Tasks, T appears in
TaskStatusIndex[T.Status] and in no other bucket). -/
def JobInfo.TaskStatusIndex (job : JobInfo) (s : TaskStatus) : List TaskInfo :=
  job.Tasks.filter (fun t => decide (t.Status = s))

/-- Mirrors an in-place write to a shared `*TaskInfo` as seen through a
job: the entry with the task's UID now shows the written value. -/
def JobInfo.setTask (job : JobInfo) (t : TaskInfo) : JobInfo :=
  { job with Tasks := job.Tasks.map (fun u => if u.UID = t.UID then t else u) }

/-- Mirrors an in-place write to a shared `*TaskInfo` as seen through a
node's task map. -/
def NodeInfo.setTask (ni : NodeInfo) (t : TaskInfo) : NodeInfo :=
  { ni with
      Tasks := ni.Tasks.map (fun kt => if kt.1 = PodKey t then (kt.1, t) else kt) }

/-- An event handler registration (AllocateFunc / EvictFunc).  Handlers
perform external bookkeeping only (§4.6: they must not call back into
session-mutating methods), so the session-visible model records only
which callbacks are present. -/
structure EventHandler where
  hasAllocateFunc : Bool
  hasEvictFunc : Bool
deriving DecidableEq, Repr

/-- A Go runtime panic observable in the modelled code paths. -/
inductive GoPanic where
  | nilPointerDereference
deriving DecidableEq, Repr

/-- The Session from the framework source.  Slices and maps are lists
and association lists (`closeSession` empties a field to model `= nil`).
The cache (§6) is represented by its two sinks: `bindFn task host`
returns `some err` when `cache.Bind` fails, `evictFn task` likewise for
`cache.Evict`. -/
structure Session where
  ID : String
  Jobs : List JobInfo
  JobIndex : List (String × JobInfo)
  Nodes : List NodeInfo
  NodeIndex : List (String × NodeInfo)
  Backlog : List JobInfo
  plugins : List String
  eventHandlers : List EventHandler
  jobOrderFns : List (JobInfo → JobInfo → Int)
  taskOrderFns : List (TaskInfo → TaskInfo → Int)
  preemptableFns : List (TaskInfo → TaskInfo → Bool)
  jobReadyFns : List (Option JobInfo → Bool)
  bindFn : String → String → Option String
  evictFn : String → Option String

/-- `closeSession(ssn)` from the framework source: it sets Jobs,
JobIndex, Nodes, NodeIndex, Backlog, plugins, eventHandlers and
jobOrderFns to nil — and only those fields. -/
def closeSession (ssn : Session) : Session :=
  { ssn with
      Jobs := []
      JobIndex := []
      Nodes := []
      NodeIndex := []
      Backlog := []
      plugins := []
      eventHandlers := []
      jobOrderFns := [] }

/-- Mirrors an in-place write to a shared `*TaskInfo`: every copy of the
task held by the session (job list and index, node list and index) now
shows the written value. -/
def Session.updateTaskCopies (ssn : Session) (t : TaskInfo) : Session :=
  { ssn with
      Jobs := ssn.Jobs.map (fun j => j.setTask t)
      JobIndex := ssn.JobIndex.map (fun kj => (kj.1, kj.2.setTask t))
      Nodes := ssn.Nodes.map (fun n => n.setTask t)
      NodeIndex := ssn.NodeIndex.map (fun kn => (kn.1, kn.2.setTask t)) }

/-- Mirrors an in-place mutation of a shared `*NodeInfo` looked up by
hostname: the node list and index now show the new value. -/
def Session.replaceNode (ssn : Session) (hostname : String) (n : NodeInfo) : Session :=
  { ssn with
      NodeIndex := ssn.NodeIndex.map (fun kn => if kn.1 = hostname then (kn.1, n) else kn)
      Nodes := ssn.Nodes.map (fun m => if m.Name = hostname then n else m) }

/-- `Session.JobReady(obj)` from the framework source: all registered
jobReadyFns must accept; with none registered the job is always ready.
The argument is the possibly-nil `*JobInfo` the caller holds. -/
def Session.JobReady (ssn : Session) (obj : Option JobInfo) : Bool :=
  ssn.jobReadyFns.all (fun jrf => jrf obj)

/-- `Session.Preemptable(preemptor, preemptee)` from the framework
source: false when no preemptableFns are registered; otherwise the
conjunction of all registered predicates. -/
def Session.Preemptable (ssn : Session) (preemptor preemptee : TaskInfo) : Bool :=
  if ssn.preemptableFns.length = 0 then false
  else ssn.preemptableFns.all (fun p => p preemptor preemptee)

/-- The comparator chain of `Session.JobOrderFn`: first non-zero
comparator wins; on total tie, order by UID ascending. -/
def jobOrderAux : List (JobInfo → JobInfo → Int) → JobInfo → JobInfo → Bool
  | [], l, r => decide (l.UID < r.UID)
  | jof :: rest, l, r =>
    let j := jof l r
    if j ≠ 0 then decide (j < 0) else jobOrderAux rest l r

/-- `Session.JobOrderFn(l, r)` from the framework source. -/
def Session.JobOrderFn (ssn : Session) (l r : JobInfo) : Bool :=
  jobOrderAux ssn.jobOrderFns l r

/-- The comparator chain of `Session.TaskOrderFn`. -/
def taskOrderAux : List (TaskInfo → TaskInfo → Int) → TaskInfo → TaskInfo → Bool
  | [], l, r => decide (l.UID < r.UID)
  | tof :: rest, l, r =>
    let j := tof l r
    if j ≠ 0 then decide (j < 0) else taskOrderAux rest l r

/-- `Session.TaskOrderFn(l, r)` from the framework source. -/
def Session.TaskOrderFn (ssn : Session) (l r : TaskInfo) : Bool :=
  taskOrderAux ssn.taskOrderFns l r

/-- `Session.Preempt(preemptor, preemptee)` from the framework source:
call `cache.Evict(preemptee)`; on error return it; on success fire the
event handlers (external bookkeeping) and return nil.  The second
component records the Evict calls issued, by preemptee UID. -/
def Session.Preempt (ssn : Session) (preemptor preemptee : TaskInfo) : Option String × List String :=
  match ssn.evictFn preemptee.UID with
  | some err => (some err, [preemptee.UID])
  | none => (none, [preemptee.UID])

/-- Result of `dispatch`: the session after the call, the returned
error, and the `cache.Bind` calls issued as (task UID, hostname). -/
structure DispatchResult where
  ssn : Session
  err : Option String
  bindCalls : List (String × String)

/-- `Session.dispatch(task)` from the framework source: call
`cache.Bind(task, task.NodeName)` and return its error on failure;
otherwise set the task's status to Binding through the job index when
the job is found (an in-place write on the shared task), and return
nil. -/
def Session.dispatch (ssn : Session) (task : TaskInfo) : DispatchResult :=
  match ssn.bindFn task.UID task.NodeName with
  | some err => { ssn := ssn, err := some err, bindCalls := [(task.UID, task.NodeName)] }
  | none =>
    match ssn.JobIndex.lookup task.Job with
    | some _ =>
      { ssn := ssn.updateTaskCopies { task with Status := TaskStatus.Binding }
        err := none
        bindCalls := [(task.UID, task.NodeName)] }
    | none => { ssn := ssn, err := none, bindCalls := [(task.UID, task.NodeName)] }

/-- The dispatch loop of `Session.Allocate`: dispatch each task of the
Allocated bucket in turn, discarding each dispatch's return value
exactly as the source does (`ssn.dispatch(task)` as a bare statement). -/
def Session.dispatchAll (ssn : Session) (tasks : List TaskInfo) : Session × List (String × String) :=
  match tasks with
  | [] => (ssn, [])
  | t :: rest =>
    let r := ssn.dispatch t
    let rec2 := r.ssn.dispatchAll rest
    (rec2.1, r.bindCalls ++ rec2.2)

/-- The state of `Session.Allocate` after the job-side update, the
NodeName write and the node-side update, before the readiness check:
the session, the possibly-nil job the local variable holds, and the
task value after the in-place writes. -/
structure AllocPhase1 where
  ssn : Session
  job : Option JobInfo
  task : TaskInfo

/-- The first phase of `Session.Allocate` from the framework source:
look up the job; when found, `UpdateTaskStatus(task, Allocated)` (an
in-place status write on the shared task, moving it between buckets);
when missing, log and skip the job-side update.  Then the in-place
write `task.NodeName = hostname`, then the node-side `AddTask` when the
hostname is in the node index (log and skip otherwise). -/
def Session.allocUpdate (ssn : Session) (task : TaskInfo) (hostname : String) : AllocPhase1 :=
  let found := ssn.JobIndex.lookup task.Job
  let task1 :=
    match found with
    | some _ => { task with Status := TaskStatus.Allocated }
    | none => task
  let ssn1 :=
    match found with
    | some _ => ssn.updateTaskCopies task1
    | none => ssn
  let task2 := { task1 with NodeName := hostname }
  let ssn2 := ssn1.updateTaskCopies task2
  let ssn3 :=
    match ssn2.NodeIndex.lookup hostname with
    | some n => ssn2.replaceNode hostname (n.AddTask task2)
    | none => ssn2
  { ssn := ssn3, job := ssn3.JobIndex.lookup task.Job, task := task2 }

/-- Result of `Allocate` / `Pipeline`: the session, the returned error
value, and the `cache.Bind` calls issued. -/
structure AllocResult where
  ssn : Session
  ret : Option String
  bindCalls : List (String × String)

/-- `Session.Allocate(task, hostname)` from the framework source: the
phase-1 updates, the event handler callbacks (external bookkeeping),
then, if `JobReady(job)` holds, dispatch every task of the job's
Allocated bucket — reading `job.TaskStatusIndex` through the local
`job` pointer, which dereferences nil and panics when the job lookup
missed — and finally `return nil`. -/
def Session.Allocate (ssn : Session) (task : TaskInfo) (hostname : String) :
    Except GoPanic AllocResult :=
  let p := ssn.allocUpdate task hostname
  if p.ssn.JobReady p.job then
    match p.job with
    | none => Except.error GoPanic.nilPointerDereference
    | some j =>
      let d := p.ssn.dispatchAll (j.TaskStatusIndex TaskStatus.Allocated)
      Except.ok { ssn := d.1, ret := none, bindCalls := d.2 }
  else
    Except.ok { ssn := p.ssn, ret := none, bindCalls := [] }

/-- `Session.Pipeline(task, hostname)` from the framework source: like
the first phase of `Allocate` but the status becomes Pipelined and the
node-side update is `PipelineTask`; event handlers fire; the return
value is always nil and no dispatch happens. -/
def Session.Pipeline (ssn : Session) (task : TaskInfo) (hostname : String) : AllocResult :=
  let found := ssn.JobIndex.lookup task.Job
  let task1 :=
    match found with
    | some _ => { task with Status := TaskStatus.Pipelined }
    | none => task
  let ssn1 :=
    match found with
    | some _ => ssn.updateTaskCopies task1
    | none => ssn
  let task2 := { task1 with NodeName := hostname }
  let ssn2 := ssn1.updateTaskCopies task2
  let ssn3 :=
    match ssn2.NodeIndex.lookup hostname with
    | some n => ssn2.replaceNode hostname (n.PipelineTask task2)
    | none => ssn2
  { ssn := ssn3, ret := none, bindCalls := [] }

/-- Modelled from the spec: the generic priority queue (§4.5), a
min-heap over a supplied strict ordering with Push/Pop/Empty.  Pop
returns a minimal element; the spec leaves the order among ties to the
comparator, and this model takes the first minimal element in arrival
order. -/
structure PriorityQueue (α : Type) where
  less : α → α → Bool
  items : List α

/-- Modelled from the spec: `util.NewPriorityQueue(less)`. -/
def NewPriorityQueue {α : Type} (less : α → α → Bool) : PriorityQueue α :=
  { less := less, items := [] }

/-- Modelled from the spec: `PriorityQueue.Push`. -/
def PriorityQueue.Push {α : Type} (q : PriorityQueue α) (x : α) : PriorityQueue α :=
  { q with items := q.items ++ [x] }

/-- Push a batch of elements in order (the `for … range` pushes of the
preempt action's initialisation). -/
def PriorityQueue.PushAll {α : Type} (q : PriorityQueue α) (xs : List α) : PriorityQueue α :=
  xs.foldl PriorityQueue.Push q

/-- Modelled from the spec: `PriorityQueue.Empty`. -/
def PriorityQueue.Empty {α : Type} (q : PriorityQueue α) : Bool :=
  q.items.isEmpty

/-- Extract the first minimal element of a list with respect to `less`,
returning it with the remaining elements in their original order. -/
def popMin {α : Type} (less : α → α → Bool) : List α → Option (α × List α)
  | [] => none
  | x :: xs =>
    match popMin less xs with
    | none => some (x, [])
    | some ml => if less ml.1 x then some (ml.1, x :: ml.2) else some (x, xs)

/-- Modelled from the spec: `PriorityQueue.Pop`, returning `none` on an
empty queue (where the Go heap would panic). -/
def PriorityQueue.Pop {α : Type} (q : PriorityQueue α) : Option (α × PriorityQueue α) :=
  (popMin q.less q.items).map (fun p => (p.1, { q with items := p.2 }))

/-- The session-local state of the preempt action's Execute: the two
job queues, the per-job task queues (association lists keyed by job
UID), the `cache.Evict` calls issued so far (by preemptee UID), and
whether a Go runtime panic occurred. -/
structure PreemptState where
  preemptors : PriorityQueue JobInfo
  preemptees : PriorityQueue JobInfo
  preemptorTasks : List (String × PriorityQueue TaskInfo)
  preempteeTasks : List (String × PriorityQueue TaskInfo)
  evictions : List String
  panicked : Bool

/-- Access `m[uid]` on a per-job task-queue map; absent keys yield an
empty queue (the zero value a Go map produces). -/
def taskQueueOf (m : List (String × PriorityQueue TaskInfo)) (uid : String) :
    PriorityQueue TaskInfo :=
  match m.lookup uid with
  | some q => q
  | none => { less := fun _ _ => false, items := [] }

/-- Write `m[uid] = q` on a per-job task-queue map. -/
def setTaskQueue (m : List (String × PriorityQueue TaskInfo)) (uid : String)
    (q : PriorityQueue TaskInfo) : List (String × PriorityQueue TaskInfo) :=
  m.map (fun kq => if kq.1 = uid then (kq.1, q) else kq)

/-- The initialisation of preemptAction.Execute from the source: every
job is pushed into `preemptors` and given a task queue of its Pending
tasks in TaskOrderFn order; jobs with Running tasks are additionally
pushed into `preemptees` with a task queue of their Running tasks in
reverse TaskOrderFn order. -/
def preemptInit (ssn : Session) : PreemptState :=
  let start : PreemptState :=
    { preemptors := NewPriorityQueue (fun l r => ssn.JobOrderFn l r)
      preemptees := NewPriorityQueue (fun l r => !ssn.JobOrderFn l r)
      preemptorTasks := []
      preempteeTasks := []
      evictions := []
      panicked := false }
  ssn.Jobs.foldl
    (fun st job =>
      let st :=
        { st with
            preemptors := st.preemptors.Push job
            preemptorTasks := st.preemptorTasks ++
              [(job.UID, (NewPriorityQueue (fun l r => ssn.TaskOrderFn l r)).PushAll
                  (job.TaskStatusIndex TaskStatus.Pending))] }
      if (job.TaskStatusIndex TaskStatus.Running).length ≠ 0 then
        { st with
            preemptees := st.preemptees.Push job
            preempteeTasks := st.preempteeTasks ++
              [(job.UID, (NewPriorityQueue (fun l r => !ssn.TaskOrderFn l r)).PushAll
                  (job.TaskStatusIndex TaskStatus.Running))] }
      else st)
    start

/-- The inner `for` of the preempt action, with fuel: starting from the
popped `preempteeJob`, while its preemptee-task queue is empty and it is
not the preemptor job itself, pop the next candidate from `preemptees`
(dropping the skipped jobs).  `none` models the Go heap's panic on a Pop
from an exhausted queue.  The caller passes `q.items.length` as fuel;
every successful Pop removes exactly one element, so the fuel runs out
only together with the queue and the zero-fuel arm is unreachable. -/
def popPreempteeGo (etasks : List (String × PriorityQueue TaskInfo)) (preemptorUID : String) :
    Nat → JobInfo → PriorityQueue JobInfo → Option (JobInfo × PriorityQueue JobInfo)
  | fuel, preempteeJob, q =>
    if (taskQueueOf etasks preempteeJob.UID).Empty = true ∧ preemptorUID ≠ preempteeJob.UID then
      match q.Pop with
      | none => none
      | some jq =>
        match fuel with
        | 0 => none
        | Nat.succ f => popPreempteeGo etasks preemptorUID f jq.1 jq.2
    else some (preempteeJob, q)

/-- The inner `for` of the preempt action (see `popPreempteeGo`). -/
def popPreempteeLoop (etasks : List (String × PriorityQueue TaskInfo)) (preemptorUID : String)
    (preempteeJob : JobInfo) (q : PriorityQueue JobInfo) :
    Option (JobInfo × PriorityQueue JobInfo) :=
  popPreempteeGo etasks preemptorUID q.items.length preempteeJob q

/-- The body of one iteration of the preempt action's main loop, from
the task pops onward: pop one preemptor task and one preemptee task; if
the session finds the pair preemptable, call `Session.Preempt` (which
issues `cache.Evict`); on success push the preemptor job back into
`preemptors`, otherwise return the preemptee task to its queue; in all
cases push the preemptee job back into `preemptees`.  `preemptors1` and
`preemptees2` are the job queues after this iteration's pops. -/
def preemptBody (ssn : Session) (preemptorJob preempteeJob : JobInfo)
    (preemptors1 preemptees2 : PriorityQueue JobInfo) (st : PreemptState) : PreemptState :=
  match (taskQueueOf st.preemptorTasks preemptorJob.UID).Pop,
        (taskQueueOf st.preempteeTasks preempteeJob.UID).Pop with
  | some oq, some pq =>
    let preemptor := oq.1
    let ptorQ := oq.2
    let preemptee := pq.1
    let pteeQ := pq.2
    let outcome :=
      if ssn.Preemptable preemptor preemptee then
        let r := ssn.Preempt preemptor preemptee
        (r.1.isNone, r.2)
      else (false, [])
    let preempted := outcome.1
    { preemptors := if preempted then preemptors1.Push preemptorJob else preemptors1
      preemptees := preemptees2.Push preempteeJob
      preemptorTasks := setTaskQueue st.preemptorTasks preemptorJob.UID ptorQ
      preempteeTasks :=
        setTaskQueue st.preempteeTasks preempteeJob.UID
          (if preempted then pteeQ else pteeQ.Push preemptee)
      evictions := st.evictions ++ outcome.2
      panicked := st.panicked }
  | _, _ => { st with panicked := true }

/-- The main loop of preemptAction.Execute from the source, with
explicit fuel bounding the number of iterations: stop when either job
queue is empty; skip (and drop) a preemptor job with no pending tasks;
run the inner preemptee-selection loop; break when preemptor and
preemptee collapse to the same job; otherwise run the iteration body
and continue. -/
def preemptLoop (ssn : Session) : Nat → PreemptState → PreemptState
  | 0, st => st
  | Nat.succ fuel, st =>
    if st.preemptors.Empty || st.preemptees.Empty then st
    else
      match st.preemptors.Pop with
      | none => { st with panicked := true }
      | some oj =>
        let preemptorJob := oj.1
        let preemptors1 := oj.2
        if (taskQueueOf st.preemptorTasks preemptorJob.UID).Empty then
          preemptLoop ssn fuel { st with preemptors := preemptors1 }
        else
          match st.preemptees.Pop with
          | none => { st with panicked := true }
          | some ej =>
            match popPreempteeLoop st.preempteeTasks preemptorJob.UID ej.1 ej.2 with
            | none => { st with preemptors := preemptors1, panicked := true }
            | some ejf =>
              let preempteeJob := ejf.1
              let preemptees2 := ejf.2
              if preemptorJob.UID = preempteeJob.UID then
                { st with preemptors := preemptors1, preemptees := preemptees2 }
              else
                preemptLoop ssn fuel
                  (preemptBody ssn preemptorJob preempteeJob preemptors1 preemptees2 st)

/-- preemptAction.Execute from the source: initialise the queues from
the session's jobs and run the main loop. -/
def executePreempt (ssn : Session) (fuel : Nat) : PreemptState :=
  preemptLoop ssn fuel (preemptInit ssn)

/-! Shared concrete fixtures for witnesses and counterexamples. -/

def v1A : V1Node :=
  { Name := "nA", StatusAllocatable := { cpu := 4, mem := 8 }
    StatusCapacity := { cpu := 4, mem := 8 } }

def v1B : V1Node :=
  { Name := "nB", StatusAllocatable := { cpu := 2, mem := 2 }
    StatusCapacity := { cpu := 3, mem := 3 } }

def tkA : TaskInfo :=
  { UID := "ta", Job := "ja", Name := "ta", Namespace := "ns", NodeName := ""
    Resreq := { cpu := 1, mem := 1 }, Status := TaskStatus.Pending }

def tkB : TaskInfo :=
  { UID := "tb", Job := "jb", Name := "tb", Namespace := "ns", NodeName := ""
    Resreq := { cpu := 1, mem := 1 }, Status := TaskStatus.Running }

/-- A session with every list empty and a cache whose Bind and Evict
always succeed; concrete sessions below override individual fields. -/
def baseSession : Session :=
  { ID := "ssn"
    Jobs := []
    JobIndex := []
    Nodes := []
    NodeIndex := []
    Backlog := []
    plugins := []
    eventHandlers := []
    jobOrderFns := []
    taskOrderFns := []
    preemptableFns := []
    jobReadyFns := []
    bindFn := fun _ _ => none
    evictFn := fun _ => none }

def nodeC10 : NodeInfo := NewNodeInfo (some v1A)

def sessOnePre : Session :=
  { baseSession with preemptableFns := [fun _ _ => true] }

/-! C9 — closeSession drops only part of the session's references. -/

def sessC9 : Session :=
  { baseSession with
      preemptableFns := [fun _ _ => true]
      taskOrderFns := [fun _ _ => (0 : Int)]
      jobReadyFns := [fun _ => true] }

def nodeC7 : NodeInfo := NewNodeInfo (some v1A)

def tkC7 : TaskInfo :=
  { UID := "t7", Job := "j7", Name := "t7", Namespace := "ns", NodeName := ""
    Resreq := { cpu := 2, mem := 1 }, Status := TaskStatus.Allocated }

/-! C1 — the three-way accounting equation over op sequences. -/

/-- An accounting operation on a node, as the session issues them. -/
inductive NodeOp where
  | add (t : TaskInfo)
  | remove (t : TaskInfo)
  | pipeline (t : TaskInfo)
deriving Repr

/-- Apply one node operation. -/
def applyNodeOp (ni : NodeInfo) : NodeOp → NodeInfo
  | NodeOp.add t => ni.AddTask t
  | NodeOp.remove t => ni.RemoveTask t
  | NodeOp.pipeline t => ni.PipelineTask t

/-- Run a sequence of node operations. -/
def runNodeOps (ni : NodeInfo) : List NodeOp → NodeInfo
  | [] => ni
  | op :: rest => runNodeOps (applyNodeOp ni op) rest

/-- The request a single operation pipelines into the node (zero unless
it is a PipelineTask that takes effect). -/
def pipeContrib (ni : NodeInfo) : NodeOp → Resource
  | NodeOp.pipeline t =>
    if (ni.Tasks.lookup (PodKey t)).isSome then EmptyResource else t.Resreq
  | NodeOp.add _ => EmptyResource
  | NodeOp.remove _ => EmptyResource

/-- The total request pipelined into the node over a run. -/
def pipelinedTotal (ni : NodeInfo) : List NodeOp → Resource
  | [] => EmptyResource
  | op :: rest => (pipeContrib ni op).Add (pipelinedTotal (applyNodeOp ni op) rest)

def tkRunC1 : TaskInfo :=
  { UID := "t1", Job := "j1", Name := "t1", Namespace := "ns", NodeName := ""
    Resreq := { cpu := 2, mem := 0 }, Status := TaskStatus.Running }

def tkRelC1 : TaskInfo :=
  { UID := "t2", Job := "j1", Name := "t2", Namespace := "ns", NodeName := ""
    Resreq := { cpu := 2, mem := 0 }, Status := TaskStatus.Releasing }

def nodeC1 : NodeInfo :=
  runNodeOps (NewNodeInfo (some v1A)) [NodeOp.add tkRunC1, NodeOp.add tkRelC1]

/-! Fixtures for the session-level claims. -/

/-- A session whose node index knows node nA but whose job index does
not contain the job of the task being allocated (index miss on the job
side), with no registered jobReadyFns. -/
def sessC2 : Session :=
  { baseSession with
      Nodes := [NewNodeInfo (some v1A)]
      NodeIndex := [("nA", NewNodeInfo (some v1A))] }

def tkC2 : TaskInfo :=
  { UID := "t2m", Job := "jmissing", Name := "t2m", Namespace := "ns", NodeName := ""
    Resreq := { cpu := 1, mem := 1 }, Status := TaskStatus.Pending }

def tkC3 : TaskInfo :=
  { UID := "t3", Job := "j3", Name := "t3", Namespace := "ns", NodeName := ""
    Resreq := { cpu := 1, mem := 1 }, Status := TaskStatus.Pending }

def jobC3 : JobInfo :=
  { UID := "j3", Name := "j3", Namespace := "ns", MinAvailable := 1, Tasks := [tkC3] }

/-- The job of sessC3 after Allocate's phase-1 updates. -/
def jobC3After : JobInfo :=
  { jobC3 with
      Tasks := [{ tkC3 with Status := TaskStatus.Allocated, NodeName := "nA" }] }

/-- A session with one single-task job, no readiness functions (every
job is always ready) and a cache whose Bind always fails. -/
def sessC3 : Session :=
  { baseSession with
      Jobs := [jobC3]
      JobIndex := [("j3", jobC3)]
      Nodes := [NewNodeInfo (some v1A)]
      NodeIndex := [("nA", NewNodeInfo (some v1A))]
      bindFn := fun _ _ => some "bind failed" }

def tk4a : TaskInfo :=
  { UID := "t4a", Job := "j4", Name := "t4a", Namespace := "ns", NodeName := ""
    Resreq := { cpu := 1, mem := 1 }, Status := TaskStatus.Pending }

def tk4b : TaskInfo :=
  { UID := "t4b", Job := "j4", Name := "t4b", Namespace := "ns", NodeName := ""
    Resreq := { cpu := 1, mem := 1 }, Status := TaskStatus.Pending }

def jobC4 : JobInfo :=
  { UID := "j4", Name := "j4", Namespace := "ns", MinAvailable := 2, Tasks := [tk4a, tk4b] }

/-- The JobReadyFn of scenario S4: ready iff at least two tasks of the
job are in the Allocated bucket. -/
def readyFnC4 : Option JobInfo → Bool := fun oj =>
  match oj with
  | some j => decide (2 ≤ (j.TaskStatusIndex TaskStatus.Allocated).length)
  | none => false

def sessC4 : Session :=
  { baseSession with
      Jobs := [jobC4]
      JobIndex := [("j4", jobC4)]
      Nodes := [NewNodeInfo (some v1A)]
      NodeIndex := [("nA", NewNodeInfo (some v1A))]
      jobReadyFns := [readyFnC4] }

/-- The session after `Allocate(T1, nA)` in scenario S4. -/
def sessC4b : Session :=
  match sessC4.Allocate tk4a "nA" with
  | Except.ok r => r.ssn
  | Except.error _ => sessC4

/-- The session after the subsequent `Allocate(T2, nA)` in scenario S4. -/
def sessC4c : Session :=
  match sessC4b.Allocate tk4b "nA" with
  | Except.ok r => r.ssn
  | Except.error _ => sessC4b

def tk5r : TaskInfo :=
  { UID := "t5r", Job := "j5", Name := "t5r", Namespace := "ns", NodeName := "nA"
    Resreq := { cpu := 1, mem := 1 }, Status := TaskStatus.Running }

def tk5p : TaskInfo :=
  { UID := "t5p", Job := "j5", Name := "t5p", Namespace := "ns", NodeName := ""
    Resreq := { cpu := 1, mem := 1 }, Status := TaskStatus.Pending }

def jobC5 : JobInfo :=
  { UID := "j5", Name := "j5", Namespace := "ns", MinAvailable := 1
    Tasks := [tk5r, tk5p] }

def sessC5 : Session :=
  { baseSession with Jobs := [jobC5], JobIndex := [("j5", jobC5)] }

def lessTaskFalse : TaskInfo → TaskInfo → Bool := fun _ _ => false

def lessJobFalse : JobInfo → JobInfo → Bool := fun _ _ => false

def pqTaskEmpty : PriorityQueue TaskInfo := { less := lessTaskFalse, items := [] }

def pqJobEmpty : PriorityQueue JobInfo := { less := lessJobFalse, items := [] }

def jobC6a : JobInfo :=
  { UID := "ja", Name := "ja", Namespace := "ns", MinAvailable := 1, Tasks := [tkA] }

def jobC6b : JobInfo :=
  { UID := "jb", Name := "jb", Namespace := "ns", MinAvailable := 1, Tasks := [tkB] }

/-- A preempt-action state in the middle of an iteration: the preemptor
job ja has one pending task and the preemptee job jb one running task. -/
def stC6 : PreemptState :=
  { preemptors := pqJobEmpty
    preemptees := pqJobEmpty
    preemptorTasks := [("ja", { less := lessTaskFalse, items := [tkA] })]
    preempteeTasks := [("jb", { less := lessTaskFalse, items := [tkB] })]
    evictions := []
    panicked := false }

/-! ### Theorems -/

/-! Helper lemmas about the resource vector. -/

theorem Resource.Add_empty (a : Resource) : a.Add EmptyResource = a := by
  cases a
  simp [Resource.Add, EmptyResource]

theorem Resource.Sub_Add_cancel (a b : Resource) : (a.Sub b).Add b = a := by
  cases a
  cases b
  simp [Resource.Sub, Resource.Add]

theorem Resource.Add_Sub_cancel (a b : Resource) : (a.Add b).Sub b = a := by
  cases a
  cases b
  simp [Resource.Add, Resource.Sub]

/-! C10 — SetNode on a node whose backing object is already present. -/

/-- C10: when `Node` is already non-nil, `SetNode` overwrites only
`Name`, `Node`, `Allocatable` and `Capability`; `Idle`, `Used`,
`Releasing` and `Tasks` are untouched (the seeding of Idle and the
replay of held tasks happen only on the first transition from a nil
Node). -/
theorem setNode_nonNil_frame (ni : NodeInfo) (node : V1Node) (h : ni.Node.isSome = true) :
    (ni.SetNode node).Idle = ni.Idle ∧
    (ni.SetNode node).Used = ni.Used ∧
    (ni.SetNode node).Releasing = ni.Releasing ∧
    (ni.SetNode node).Tasks = ni.Tasks ∧
    (ni.SetNode node).Name = node.Name ∧
    (ni.SetNode node).Node = some node ∧
    (ni.SetNode node).Allocatable = node.StatusAllocatable ∧
    (ni.SetNode node).Capability = node.StatusCapacity := by
  obtain ⟨v, hv⟩ := Option.isSome_iff_exists.mp h
  unfold NodeInfo.SetNode
  rw [hv]
  simp

theorem setNode_nonNil_frame_witness :
    nodeC10.Node.isSome = true ∧
    ((nodeC10.SetNode v1B).Idle = nodeC10.Idle ∧
     (nodeC10.SetNode v1B).Used = nodeC10.Used ∧
     (nodeC10.SetNode v1B).Releasing = nodeC10.Releasing ∧
     (nodeC10.SetNode v1B).Tasks = nodeC10.Tasks ∧
     (nodeC10.SetNode v1B).Name = v1B.Name ∧
     (nodeC10.SetNode v1B).Node = some v1B ∧
     (nodeC10.SetNode v1B).Allocatable = v1B.StatusAllocatable ∧
     (nodeC10.SetNode v1B).Capability = v1B.StatusCapacity) :=
  ⟨rfl, setNode_nonNil_frame nodeC10 v1B rfl⟩

/-! C8 — aggregation of the preemptable predicates. -/

/-- C8: `Preemptable(a, b)` is false whenever no PreemptableFn is
registered; with one or more registered it is true iff every registered
predicate accepts the pair. -/
theorem preemptable_conjunction (ssn : Session) (a b : TaskInfo) :
    (ssn.preemptableFns = [] → ssn.Preemptable a b = false) ∧
    (ssn.preemptableFns ≠ [] →
      (ssn.Preemptable a b = true ↔ ∀ p ∈ ssn.preemptableFns, p a b = true)) := by
  constructor
  · intro h
    simp [Session.Preemptable, h]
  · intro h
    unfold Session.Preemptable
    rw [if_neg (fun hc => h (List.length_eq_zero.mp hc))]
    exact List.all_eq_true

theorem preemptable_conjunction_witness :
    baseSession.Preemptable tkA tkB = false ∧
    sessOnePre.Preemptable tkA tkB = true :=
  ⟨(preemptable_conjunction baseSession tkA tkB).1 rfl,
   ((preemptable_conjunction sessOnePre tkA tkB).2 (by simp [sessOnePre])).mpr
     (by
       intro p hp
       simp only [sessOnePre, List.mem_singleton] at hp
       subst hp
       rfl)⟩

/-- C9 counterexample: closeSession does not drop the preemptable
function list — on a session with one registered PreemptableFn the list
is still there afterwards, so not every reference is dropped. -/
theorem closeSession_counterexample :
    ¬ ((closeSession sessC9).preemptableFns = []) := by
  simp [closeSession, sessC9]

/-- C9 amended: closeSession drops the job list and index, node list
and index, backlog, plugins, event handlers and the job-order function
list, but leaves the task-order, preemptable and job-ready function
lists in place. -/
theorem closeSession_drops (ssn : Session) :
    (closeSession ssn).Jobs = [] ∧
    (closeSession ssn).JobIndex = [] ∧
    (closeSession ssn).Nodes = [] ∧
    (closeSession ssn).NodeIndex = [] ∧
    (closeSession ssn).Backlog = [] ∧
    (closeSession ssn).plugins = [] ∧
    (closeSession ssn).eventHandlers = [] ∧
    (closeSession ssn).jobOrderFns = [] ∧
    (closeSession ssn).taskOrderFns = ssn.taskOrderFns ∧
    (closeSession ssn).preemptableFns = ssn.preemptableFns ∧
    (closeSession ssn).jobReadyFns = ssn.jobReadyFns :=
  ⟨rfl, rfl, rfl, rfl, rfl, rfl, rfl, rfl, rfl, rfl, rfl⟩

/-! Characterisations of the node operations on their branches. -/

theorem AddTask_found (ni : NodeInfo) (t : TaskInfo)
    (hk : (ni.Tasks.lookup (PodKey t)).isSome = true) : ni.AddTask t = ni := by
  simp [NodeInfo.AddTask, hk]

theorem AddTask_eq (ni : NodeInfo) (t : TaskInfo)
    (hk : (ni.Tasks.lookup (PodKey t)).isSome = false) (hn : ni.Node.isSome = true) :
    ni.AddTask t =
      { ni with
          Releasing :=
            if t.Status = TaskStatus.Releasing then ni.Releasing.Add t.Resreq
            else ni.Releasing
          Idle := ni.Idle.Sub t.Resreq
          Used := ni.Used.Add t.Resreq
          Tasks := (PodKey t, t) :: ni.Tasks } := by
  by_cases hs : t.Status = TaskStatus.Releasing
  · simp [NodeInfo.AddTask, hk, hn, hs]
  · simp [NodeInfo.AddTask, hk, hn, hs]

theorem RemoveTask_notFound (ni : NodeInfo) (t : TaskInfo)
    (hk : ni.Tasks.lookup (PodKey t) = none) : ni.RemoveTask t = ni := by
  simp [NodeInfo.RemoveTask, hk]

theorem RemoveTask_eq (ni : NodeInfo) (t stored : TaskInfo)
    (hk : ni.Tasks.lookup (PodKey t) = some stored) (hn : ni.Node.isSome = true) :
    ni.RemoveTask t =
      { ni with
          Releasing :=
            if stored.Status = TaskStatus.Releasing then ni.Releasing.Sub stored.Resreq
            else ni.Releasing
          Idle := ni.Idle.Add stored.Resreq
          Used := ni.Used.Sub stored.Resreq
          Tasks := ni.Tasks.filter (fun kt => decide (kt.1 ≠ PodKey t)) } := by
  by_cases hs : stored.Status = TaskStatus.Releasing
  · simp [NodeInfo.RemoveTask, hk, hn, hs]
  · simp [NodeInfo.RemoveTask, hk, hn, hs]

theorem PipelineTask_found (ni : NodeInfo) (t : TaskInfo)
    (hk : (ni.Tasks.lookup (PodKey t)).isSome = true) : ni.PipelineTask t = ni := by
  simp [NodeInfo.PipelineTask, hk]

theorem PipelineTask_eq (ni : NodeInfo) (t : TaskInfo)
    (hk : (ni.Tasks.lookup (PodKey t)).isSome = false) (hn : ni.Node.isSome = true) :
    ni.PipelineTask t =
      { ni with
          Releasing := ni.Releasing.Sub t.Resreq
          Used := ni.Used.Add t.Resreq
          Tasks := (PodKey t, t) :: ni.Tasks } := by
  simp [NodeInfo.PipelineTask, hk, hn]

/-! C7 — AddTask followed by RemoveTask restores the accounting. -/

/-- C7: on a node with a real backing object, adding a task that is not
yet on the node with a non-Releasing status (as `Allocate` does after
setting the status to Allocated), letting its status change in place to
any other non-Releasing status (the session's own transitions, e.g. to
Binding), and then removing it, leaves `Idle`, `Used` and `Releasing`
equal to their values before the addition. -/
theorem addTask_removeTask_restores (ni : NodeInfo) (t : TaskInfo) (s2 : TaskStatus)
    (hn : ni.Node.isSome = true)
    (hmem : (ni.Tasks.lookup (PodKey t)).isSome = false)
    (hs1 : t.Status ≠ TaskStatus.Releasing)
    (hs2 : s2 ≠ TaskStatus.Releasing) :
    (((ni.AddTask t).setTask { t with Status := s2 }).RemoveTask t).Idle = ni.Idle ∧
    (((ni.AddTask t).setTask { t with Status := s2 }).RemoveTask t).Used = ni.Used ∧
    (((ni.AddTask t).setTask { t with Status := s2 }).RemoveTask t).Releasing =
      ni.Releasing := by
  have hadd : ni.AddTask t =
      { ni with
          Idle := ni.Idle.Sub t.Resreq
          Used := ni.Used.Add t.Resreq
          Tasks := (PodKey t, t) :: ni.Tasks } := by
    rw [AddTask_eq ni t hmem hn, if_neg hs1]
  have hset : (ni.AddTask t).setTask { t with Status := s2 } =
      { ni with
          Idle := ni.Idle.Sub t.Resreq
          Used := ni.Used.Add t.Resreq
          Tasks := (PodKey t, ({ t with Status := s2 } : TaskInfo)) ::
            ni.Tasks.map (fun kt =>
              if kt.1 = t.UID then (kt.1, ({ t with Status := s2 } : TaskInfo)) else kt) } := by
    rw [hadd]
    simp [NodeInfo.setTask, PodKey]
  have hlook : ((ni.AddTask t).setTask { t with Status := s2 }).Tasks.lookup (PodKey t) =
      some ({ t with Status := s2 } : TaskInfo) := by
    rw [hset]
    simp [List.lookup, PodKey]
  have hn2 : ((ni.AddTask t).setTask { t with Status := s2 }).Node.isSome = true := by
    rw [hset]
    exact hn
  rw [RemoveTask_eq ((ni.AddTask t).setTask { t with Status := s2 }) t
      { t with Status := s2 } hlook hn2, if_neg hs2, hset]
  exact ⟨Resource.Sub_Add_cancel ni.Idle t.Resreq,
    Resource.Add_Sub_cancel ni.Used t.Resreq, rfl⟩

theorem addTask_removeTask_restores_witness :
    nodeC7.Node.isSome = true ∧
    (nodeC7.Tasks.lookup (PodKey tkC7)).isSome = false ∧
    tkC7.Status ≠ TaskStatus.Releasing ∧
    TaskStatus.Binding ≠ TaskStatus.Releasing ∧
    ((((nodeC7.AddTask tkC7).setTask { tkC7 with Status := TaskStatus.Binding }).RemoveTask
        tkC7).Idle = nodeC7.Idle ∧
     (((nodeC7.AddTask tkC7).setTask { tkC7 with Status := TaskStatus.Binding }).RemoveTask
        tkC7).Used = nodeC7.Used ∧
     (((nodeC7.AddTask tkC7).setTask { tkC7 with Status := TaskStatus.Binding }).RemoveTask
        tkC7).Releasing = nodeC7.Releasing) :=
  ⟨rfl, rfl, by decide, by decide,
   addTask_removeTask_restores nodeC7 tkC7 TaskStatus.Binding rfl rfl (by decide) (by decide)⟩

theorem applyNodeOp_step (ni : NodeInfo) (op : NodeOp) (h : ni.Node.isSome = true) :
    (applyNodeOp ni op).Node = ni.Node ∧
    (applyNodeOp ni op).Allocatable = ni.Allocatable ∧
    (applyNodeOp ni op).Used.Add (applyNodeOp ni op).Idle =
      (ni.Used.Add ni.Idle).Add (pipeContrib ni op) := by
  cases op with
  | add t =>
    show (ni.AddTask t).Node = ni.Node ∧ (ni.AddTask t).Allocatable = ni.Allocatable ∧
      (ni.AddTask t).Used.Add (ni.AddTask t).Idle =
        (ni.Used.Add ni.Idle).Add (pipeContrib ni (NodeOp.add t))
    cases hk : (ni.Tasks.lookup (PodKey t)).isSome with
    | true =>
      rw [AddTask_found ni t hk]
      exact ⟨rfl, rfl, (Resource.Add_empty _).symm⟩
    | false =>
      rw [AddTask_eq ni t hk h]
      refine ⟨rfl, rfl, ?_⟩
      show (ni.Used.Add t.Resreq).Add (ni.Idle.Sub t.Resreq) =
        (ni.Used.Add ni.Idle).Add EmptyResource
      rw [Resource.Add_empty]
      cases ni.Used; cases ni.Idle; cases t.Resreq
      simp only [Resource.Add, Resource.Sub, Resource.mk.injEq]
      omega
  | remove t =>
    show (ni.RemoveTask t).Node = ni.Node ∧ (ni.RemoveTask t).Allocatable = ni.Allocatable ∧
      (ni.RemoveTask t).Used.Add (ni.RemoveTask t).Idle =
        (ni.Used.Add ni.Idle).Add (pipeContrib ni (NodeOp.remove t))
    cases hk : ni.Tasks.lookup (PodKey t) with
    | none =>
      rw [RemoveTask_notFound ni t hk]
      exact ⟨rfl, rfl, (Resource.Add_empty _).symm⟩
    | some stored =>
      rw [RemoveTask_eq ni t stored hk h]
      refine ⟨rfl, rfl, ?_⟩
      show (ni.Used.Sub stored.Resreq).Add (ni.Idle.Add stored.Resreq) =
        (ni.Used.Add ni.Idle).Add EmptyResource
      rw [Resource.Add_empty]
      cases ni.Used; cases ni.Idle; cases stored.Resreq
      simp only [Resource.Add, Resource.Sub, Resource.mk.injEq]
      omega
  | pipeline t =>
    show (ni.PipelineTask t).Node = ni.Node ∧
      (ni.PipelineTask t).Allocatable = ni.Allocatable ∧
      (ni.PipelineTask t).Used.Add (ni.PipelineTask t).Idle =
        (ni.Used.Add ni.Idle).Add (pipeContrib ni (NodeOp.pipeline t))
    cases hk : (ni.Tasks.lookup (PodKey t)).isSome with
    | true =>
      rw [PipelineTask_found ni t hk]
      refine ⟨rfl, rfl, ?_⟩
      show ni.Used.Add ni.Idle =
        (ni.Used.Add ni.Idle).Add
          (if (ni.Tasks.lookup (PodKey t)).isSome = true then EmptyResource else t.Resreq)
      rw [hk, if_pos rfl, Resource.Add_empty]
    | false =>
      rw [PipelineTask_eq ni t hk h]
      refine ⟨rfl, rfl, ?_⟩
      show (ni.Used.Add t.Resreq).Add ni.Idle =
        (ni.Used.Add ni.Idle).Add
          (if (ni.Tasks.lookup (PodKey t)).isSome = true then EmptyResource else t.Resreq)
      rw [hk]
      simp only [Bool.false_eq_true, if_false]
      cases ni.Used; cases ni.Idle; cases t.Resreq
      simp only [Resource.Add, Resource.mk.injEq]
      omega

theorem runNodeOps_invariant :
    ∀ (ops : List NodeOp) (ni : NodeInfo), ni.Node.isSome = true →
      (runNodeOps ni ops).Allocatable = ni.Allocatable ∧
      (runNodeOps ni ops).Used.Add (runNodeOps ni ops).Idle =
        (ni.Used.Add ni.Idle).Add (pipelinedTotal ni ops) := by
  intro ops
  induction ops with
  | nil =>
    intro ni h
    exact ⟨rfl, (Resource.Add_empty _).symm⟩
  | cons op rest ih =>
    intro ni h
    obtain ⟨hnode, halloc, hsum⟩ := applyNodeOp_step ni op h
    have h2 : (applyNodeOp ni op).Node.isSome = true := by rw [hnode]; exact h
    obtain ⟨ihalloc, ihsum⟩ := ih (applyNodeOp ni op) h2
    constructor
    · show (runNodeOps (applyNodeOp ni op) rest).Allocatable = ni.Allocatable
      rw [ihalloc, halloc]
    · show (runNodeOps (applyNodeOp ni op) rest).Used.Add
          (runNodeOps (applyNodeOp ni op) rest).Idle =
        (ni.Used.Add ni.Idle).Add (pipelinedTotal ni (op :: rest))
      rw [ihsum, hsum]
      show ((ni.Used.Add ni.Idle).Add (pipeContrib ni op)).Add
          (pipelinedTotal (applyNodeOp ni op) rest) =
        (ni.Used.Add ni.Idle).Add
          ((pipeContrib ni op).Add (pipelinedTotal (applyNodeOp ni op) rest))
      cases ni.Used; cases ni.Idle; cases pipeContrib ni op
      cases pipelinedTotal (applyNodeOp ni op) rest
      simp [Resource.Add]
      omega

/-- C1 amended: starting from a freshly constructed node with a real
backing object, after any sequence of AddTask / RemoveTask /
PipelineTask calls the equation `Used + Idle = Allocatable + P` holds
componentwise, where `P` is the total request pipelined into the node
(so with no PipelineTask calls, `Used + Idle = Allocatable`).  The
claimed equation `Used − Releasing + Idle = Allocatable` does not hold
in general (see the counterexample). -/
theorem node_accounting_invariant (v : V1Node) (ops : List NodeOp) :
    (runNodeOps (NewNodeInfo (some v)) ops).Used.Add
        (runNodeOps (NewNodeInfo (some v)) ops).Idle =
      (runNodeOps (NewNodeInfo (some v)) ops).Allocatable.Add
        (pipelinedTotal (NewNodeInfo (some v)) ops) := by
  obtain ⟨halloc, hsum⟩ := runNodeOps_invariant ops (NewNodeInfo (some v)) rfl
  rw [hsum, halloc]
  show (((NewNodeInfo (some v)).Used.Add (NewNodeInfo (some v)).Idle).Add
      (pipelinedTotal (NewNodeInfo (some v)) ops)) =
    (NewNodeInfo (some v)).Allocatable.Add (pipelinedTotal (NewNodeInfo (some v)) ops)
  cases hp : pipelinedTotal (NewNodeInfo (some v)) ops
  cases v
  simp [NewNodeInfo, Resource.Add, EmptyResource]

/-- C1 counterexample: from a fresh node with Allocatable {cpu 4, mem 8},
adding a Running task (cpu 2) and then a Releasing task (cpu 2) — both
respecting AddTask's precondition of not yet being on the node — yields
Used {4,0}, Releasing {2,0}, Idle {0,8}, so Used − Releasing + Idle =
{2,8} ≠ {4,8} = Allocatable. -/
theorem node_accounting_counterexample :
    ¬ ((nodeC1.Used.Sub nodeC1.Releasing).Add nodeC1.Idle = nodeC1.Allocatable) := by
  decide

/-! Lemmas about dispatch and the dispatch loop. -/

theorem dispatch_bindCalls (ssn : Session) (t : TaskInfo) :
    (ssn.dispatch t).bindCalls = [(t.UID, t.NodeName)] := by
  unfold Session.dispatch
  cases ssn.bindFn t.UID t.NodeName with
  | some e => rfl
  | none =>
    cases ssn.JobIndex.lookup t.Job with
    | some j => rfl
    | none => rfl

theorem dispatch_bindFail (ssn : Session) (t : TaskInfo)
    (h : (ssn.bindFn t.UID t.NodeName).isSome = true) : (ssn.dispatch t).ssn = ssn := by
  unfold Session.dispatch
  cases hb : ssn.bindFn t.UID t.NodeName with
  | some e => rfl
  | none =>
    rw [hb] at h
    simp at h

theorem dispatchAll_cons (ssn : Session) (t : TaskInfo) (rest : List TaskInfo) :
    ssn.dispatchAll (t :: rest) =
      (((ssn.dispatch t).ssn.dispatchAll rest).1,
        (ssn.dispatch t).bindCalls ++ ((ssn.dispatch t).ssn.dispatchAll rest).2) := rfl

theorem dispatchAll_calls :
    ∀ (ts : List TaskInfo) (ssn : Session),
      (ssn.dispatchAll ts).2 = ts.map (fun t => (t.UID, t.NodeName)) := by
  intro ts
  induction ts with
  | nil => intro ssn; rfl
  | cons t rest ih =>
    intro ssn
    rw [dispatchAll_cons, dispatch_bindCalls]
    simp [ih]

theorem dispatchAll_allFail :
    ∀ (ts : List TaskInfo) (ssn : Session),
      (∀ t ∈ ts, (ssn.bindFn t.UID t.NodeName).isSome = true) →
      (ssn.dispatchAll ts).1 = ssn := by
  intro ts
  induction ts with
  | nil => intro ssn _; rfl
  | cons t rest ih =>
    intro ssn h
    rw [dispatchAll_cons]
    have hd : (ssn.dispatch t).ssn = ssn := dispatch_bindFail ssn t (h t (by simp))
    rw [hd]
    exact ih ssn (fun u hu => h u (by simp [hu]))

/-! C2 — index miss during Allocate. -/

/-- C2: the code path the claim describes crashes.  On a job-index miss
with no registered jobReadyFns, `Allocate` performs the node-side update
and then evaluates `JobReady(nil)` — vacuously true — and dereferences
the nil job pointer in the dispatch loop: a runtime panic instead of the
claimed normal return. -/
theorem allocate_jobMiss_panics :
    sessC2.Allocate tkC2 "nA" = Except.error GoPanic.nilPointerDereference := rfl

/-! C3 — the Bind error is not surfaced by Allocate. -/

/-- C3 counterexample: a session whose cache's Bind always fails; the
triggered dispatch calls Bind (the call is recorded), Bind returns an
error, yet Allocate returns nil rather than that error. -/
theorem allocate_bind_error_counterexample :
    sessC3.bindFn "t3" "nA" = some "bind failed" ∧
    (sessC3.Allocate tkC3 "nA").map AllocResult.bindCalls = Except.ok [("t3", "nA")] ∧
    (sessC3.Allocate tkC3 "nA").map AllocResult.ret = Except.ok none :=
  ⟨rfl, rfl, rfl⟩

/-- C3 amended: when a triggered dispatch's Bind fails, the error stops
that dispatch (no status update for the task), there is no in-session
retry (exactly one Bind call per task of the Allocated bucket), but the
error is discarded — Allocate returns nil, leaving the session exactly
as it was after the phase-1 updates. -/
theorem allocate_discards_bind_error (ssn : Session) (task : TaskInfo) (hostname : String)
    (j : JobInfo)
    (h1 : (ssn.allocUpdate task hostname).job = some j)
    (h2 : (ssn.allocUpdate task hostname).ssn.JobReady (some j) = true)
    (h3 : ∀ t ∈ j.TaskStatusIndex TaskStatus.Allocated,
      ((ssn.allocUpdate task hostname).ssn.bindFn t.UID t.NodeName).isSome = true) :
    ssn.Allocate task hostname = Except.ok
      { ssn := (ssn.allocUpdate task hostname).ssn
        ret := none
        bindCalls := (j.TaskStatusIndex TaskStatus.Allocated).map
          (fun t => (t.UID, t.NodeName)) } := by
  have hc := dispatchAll_calls (j.TaskStatusIndex TaskStatus.Allocated)
    (ssn.allocUpdate task hostname).ssn
  have hf := dispatchAll_allFail (j.TaskStatusIndex TaskStatus.Allocated)
    (ssn.allocUpdate task hostname).ssn h3
  simp only [Session.Allocate]
  rw [h1, h2, if_pos rfl]
  dsimp only
  rw [hf, hc]

theorem allocate_discards_bind_error_witness :
    (sessC3.allocUpdate tkC3 "nA").job = some jobC3After ∧
    sessC3.Allocate tkC3 "nA" = Except.ok
      { ssn := (sessC3.allocUpdate tkC3 "nA").ssn
        ret := none
        bindCalls := (jobC3After.TaskStatusIndex TaskStatus.Allocated).map
          (fun t => (t.UID, t.NodeName)) } :=
  ⟨rfl, allocate_discards_bind_error sessC3 tkC3 "nA" jobC3After rfl rfl
    (fun _ _ => rfl)⟩

/-! C4 — gang dispatch on readiness. -/

/-- C4: in the S4 scenario (two Pending tasks, readiness at two
Allocated tasks), the first Allocate issues no Bind call, the second
issues exactly two — one per task of the Allocated bucket — and both
tasks end up Binding; and in general, whenever `JobReady(job)` holds
after an Allocate, every task of the job's Allocated bucket is
dispatched (one Bind call each). -/
theorem gang_dispatch :
    ((sessC4.Allocate tk4a "nA").map AllocResult.bindCalls = Except.ok [] ∧
     (sessC4b.Allocate tk4b "nA").map AllocResult.bindCalls =
       Except.ok [("t4a", "nA"), ("t4b", "nA")] ∧
     (sessC4c.JobIndex.lookup "j4").map (fun j => j.Tasks.map TaskInfo.Status) =
       some [TaskStatus.Binding, TaskStatus.Binding]) ∧
    (∀ (ssn : Session) (task : TaskInfo) (hostname : String) (j : JobInfo),
      (ssn.allocUpdate task hostname).job = some j →
      (ssn.allocUpdate task hostname).ssn.JobReady (some j) = true →
      (ssn.Allocate task hostname).map AllocResult.bindCalls =
        Except.ok ((j.TaskStatusIndex TaskStatus.Allocated).map
          (fun t => (t.UID, t.NodeName)))) := by
  constructor
  · exact ⟨rfl, rfl, rfl⟩
  · intro ssn task hostname j h1 h2
    simp only [Session.Allocate]
    rw [h1, h2, if_pos rfl]
    dsimp only
    simp [Except.map, dispatchAll_calls]

/-! Lemmas about the priority queue and the preempt action's state. -/

theorem PushAll_items {α : Type} :
    ∀ (xs : List α) (q : PriorityQueue α),
      (q.PushAll xs).items = q.items ++ xs ∧ (q.PushAll xs).less = q.less := by
  intro xs
  induction xs with
  | nil => intro q; exact ⟨(List.append_nil _).symm, rfl⟩
  | cons x rest ih =>
    intro q
    have hstep : q.PushAll (x :: rest) = (q.Push x).PushAll rest := rfl
    rw [hstep]
    obtain ⟨h1, h2⟩ := ih (q.Push x)
    refine ⟨?_, h2⟩
    rw [h1]
    show (q.items ++ [x]) ++ rest = q.items ++ (x :: rest)
    simp

theorem PushAll_nil_items {α : Type} (less : α → α → Bool) (xs : List α) :
    ({ less := less, items := [] } : PriorityQueue α).PushAll xs =
      { less := less, items := xs } := by
  obtain ⟨h1, h2⟩ := PushAll_items xs ({ less := less, items := [] } : PriorityQueue α)
  have heta : ({ less := less, items := [] } : PriorityQueue α).PushAll xs =
      { less := (({ less := less, items := [] } : PriorityQueue α).PushAll xs).less
        items := (({ less := less, items := [] } : PriorityQueue α).PushAll xs).items } := rfl
  rw [heta, h1, h2]
  rfl

theorem taskQueueOf_pop_found (m : List (String × PriorityQueue TaskInfo)) (uid : String)
    (x : TaskInfo × PriorityQueue TaskInfo)
    (h : (taskQueueOf m uid).Pop = some x) : (m.lookup uid).isSome = true := by
  cases hl : m.lookup uid with
  | some q => rfl
  | none =>
    unfold taskQueueOf at h
    rw [hl] at h
    simp [PriorityQueue.Pop, popMin] at h

theorem setTaskQueue_cons_self (k : String) (v q : PriorityQueue TaskInfo)
    (rest : List (String × PriorityQueue TaskInfo)) :
    setTaskQueue ((k, v) :: rest) k q = (k, q) :: setTaskQueue rest k q := by
  unfold setTaskQueue
  rw [List.map_cons, if_pos rfl]

theorem setTaskQueue_cons_ne (k : String) (v q : PriorityQueue TaskInfo) (uid : String)
    (rest : List (String × PriorityQueue TaskInfo)) (h : k ≠ uid) :
    setTaskQueue ((k, v) :: rest) uid q = (k, v) :: setTaskQueue rest uid q := by
  unfold setTaskQueue
  rw [List.map_cons, if_neg h]

theorem taskQueueOf_set_found :
    ∀ (m : List (String × PriorityQueue TaskInfo)) (uid : String)
      (q : PriorityQueue TaskInfo), (m.lookup uid).isSome = true →
      taskQueueOf (setTaskQueue m uid q) uid = q := by
  intro m
  induction m with
  | nil => intro uid q h; simp [List.lookup] at h
  | cons kv rest ih =>
    intro uid q h
    obtain ⟨k, v⟩ := kv
    by_cases hk : k = uid
    · subst hk
      rw [setTaskQueue_cons_self]
      unfold taskQueueOf
      rw [show List.lookup k ((k, q) :: setTaskQueue rest k q) = some q by
        simp [List.lookup]]
    · rw [setTaskQueue_cons_ne k v q uid rest hk]
      have hbeq : (uid == k) = false := by
        rw [beq_eq_false_iff_ne]
        exact fun hh => hk hh.symm
      have h2 : (rest.lookup uid).isSome = true := by
        rw [List.lookup, hbeq] at h
        exact h
      unfold taskQueueOf
      rw [List.lookup, hbeq]
      exact ih uid q h2

/-! C5 — single-job protection: no eviction when the only job is both
the best preemptor and the only preemptee. -/

/-- C5: in a session whose snapshot holds exactly one job, with at least
one Running and at least one Pending task, the preempt action issues no
`cache.Evict` call: the first iteration pops the same job as preemptor
and preemptee and the loop breaks on that collapse. -/
theorem preempt_single_job (ssn : Session) (J : JobInfo) (fuel : Nat)
    (hJ : ssn.Jobs = [J])
    (hR : J.TaskStatusIndex TaskStatus.Running ≠ [])
    (hP : J.TaskStatusIndex TaskStatus.Pending ≠ []) :
    (executePreempt ssn fuel).evictions = [] := by
  have hlen : (J.TaskStatusIndex TaskStatus.Running).length ≠ 0 :=
    fun h => hR (List.length_eq_zero.mp h)
  have hPfalse : (J.TaskStatusIndex TaskStatus.Pending).isEmpty = false := by
    cases hp : J.TaskStatusIndex TaskStatus.Pending with
    | nil => exact absurd hp hP
    | cons a l => rfl
  have hRfalse : (J.TaskStatusIndex TaskStatus.Running).isEmpty = false := by
    cases hp : J.TaskStatusIndex TaskStatus.Running with
    | nil => exact absurd hp hR
    | cons a l => rfl
  have hinit : preemptInit ssn =
      { preemptors := { less := fun l r => ssn.JobOrderFn l r, items := [J] }
        preemptees := { less := fun l r => !ssn.JobOrderFn l r, items := [J] }
        preemptorTasks := [(J.UID,
          { less := fun l r => ssn.TaskOrderFn l r
            items := J.TaskStatusIndex TaskStatus.Pending })]
        preempteeTasks := [(J.UID,
          { less := fun l r => !ssn.TaskOrderFn l r
            items := J.TaskStatusIndex TaskStatus.Running })]
        evictions := []
        panicked := false } := by
    unfold preemptInit
    rw [hJ]
    simp only [List.foldl]
    rw [if_pos hlen]
    simp [PriorityQueue.Push, PushAll_nil_items, NewPriorityQueue]
  show (preemptLoop ssn fuel (preemptInit ssn)).evictions = []
  rw [hinit]
  cases fuel with
  | zero => rfl
  | succ f =>
    simp only [preemptLoop, PriorityQueue.Empty, PriorityQueue.Pop, popMin, taskQueueOf,
      List.lookup, beq_self_eq_true, List.isEmpty_cons, Option.map, hPfalse, hRfalse,
      popPreempteeLoop, popPreempteeGo]
    simp [hPfalse, hRfalse]

def fuelC5 : Nat := 3

theorem preempt_single_job_witness :
    sessC5.Jobs = [jobC5] ∧ (executePreempt sessC5 fuelC5).evictions = [] :=
  ⟨rfl, preempt_single_job sessC5 jobC5 fuelC5 rfl (by decide) (by decide)⟩

theorem preemptBody_eq (ssn : Session) (preemptorJob preempteeJob : JobInfo)
    (preemptors1 preemptees2 : PriorityQueue JobInfo) (st : PreemptState)
    (preemptor preemptee : TaskInfo) (ptorQ pteeQ : PriorityQueue TaskInfo)
    (h1 : (taskQueueOf st.preemptorTasks preemptorJob.UID).Pop = some (preemptor, ptorQ))
    (h2 : (taskQueueOf st.preempteeTasks preempteeJob.UID).Pop = some (preemptee, pteeQ)) :
    preemptBody ssn preemptorJob preempteeJob preemptors1 preemptees2 st =
      { preemptors :=
          if (ssn.Preemptable preemptor preemptee &&
              (ssn.evictFn preemptee.UID).isNone) = true then
            preemptors1.Push preemptorJob
          else preemptors1
        preemptees := preemptees2.Push preempteeJob
        preemptorTasks := setTaskQueue st.preemptorTasks preemptorJob.UID ptorQ
        preempteeTasks :=
          setTaskQueue st.preempteeTasks preempteeJob.UID
            (if (ssn.Preemptable preemptor preemptee &&
                (ssn.evictFn preemptee.UID).isNone) = true then
              pteeQ
            else pteeQ.Push preemptee)
        evictions := st.evictions ++
          (if ssn.Preemptable preemptor preemptee = true then [preemptee.UID] else [])
        panicked := st.panicked } := by
  unfold preemptBody
  rw [h1, h2]
  dsimp only
  cases hpre : ssn.Preemptable preemptor preemptee with
  | false => simp [hpre, Session.Preempt]
  | true =>
    cases hev : ssn.evictFn preemptee.UID with
    | some e => simp [hpre, hev, Session.Preempt]
    | none => simp [hpre, hev, Session.Preempt]

/-! C6 — the re-queue discipline of one loop iteration. -/

/-- C6: in an iteration of the preempt loop that reaches the
Preemptable test (both task pops succeed and the two jobs differ): the
preemptee job is always pushed back into `preemptees`; when the pair is
not preemptable, or the Preempt call errors, the popped preemptee task
is pushed back into its job's queue and the preemptor job is not
re-pushed; when the preemption succeeds, the preemptor job is pushed
back and the preemptee task is not returned; and `cache.Evict` is
called exactly when the pair is preemptable. -/
theorem preempt_body_requeues (ssn : Session) (preemptorJob preempteeJob : JobInfo)
    (preemptors1 preemptees2 : PriorityQueue JobInfo) (st : PreemptState)
    (preemptor preemptee : TaskInfo) (ptorQ pteeQ : PriorityQueue TaskInfo)
    (h1 : (taskQueueOf st.preemptorTasks preemptorJob.UID).Pop = some (preemptor, ptorQ))
    (h2 : (taskQueueOf st.preempteeTasks preempteeJob.UID).Pop = some (preemptee, pteeQ)) :
    (preemptBody ssn preemptorJob preempteeJob preemptors1 preemptees2 st).preemptees =
      preemptees2.Push preempteeJob ∧
    ((ssn.Preemptable preemptor preemptee = false ∨
        (ssn.evictFn preemptee.UID).isSome = true) →
      (preemptBody ssn preemptorJob preempteeJob preemptors1 preemptees2 st).preemptors =
        preemptors1 ∧
      taskQueueOf
          (preemptBody ssn preemptorJob preempteeJob preemptors1 preemptees2 st).preempteeTasks
          preempteeJob.UID = pteeQ.Push preemptee) ∧
    (ssn.Preemptable preemptor preemptee = true → ssn.evictFn preemptee.UID = none →
      (preemptBody ssn preemptorJob preempteeJob preemptors1 preemptees2 st).preemptors =
        preemptors1.Push preemptorJob ∧
      taskQueueOf
          (preemptBody ssn preemptorJob preempteeJob preemptors1 preemptees2 st).preempteeTasks
          preempteeJob.UID = pteeQ) ∧
    (preemptBody ssn preemptorJob preempteeJob preemptors1 preemptees2 st).evictions =
      st.evictions ++
        (if ssn.Preemptable preemptor preemptee = true then [preemptee.UID] else []) := by
  have hfound : (st.preempteeTasks.lookup preempteeJob.UID).isSome = true :=
    taskQueueOf_pop_found st.preempteeTasks preempteeJob.UID (preemptee, pteeQ) h2
  rw [preemptBody_eq ssn preemptorJob preempteeJob preemptors1 preemptees2 st
    preemptor preemptee ptorQ pteeQ h1 h2]
  refine ⟨rfl, ?_, ?_, rfl⟩
  · intro hor
    have hpd : (ssn.Preemptable preemptor preemptee &&
        (ssn.evictFn preemptee.UID).isNone) = false := by
      cases hor with
      | inl hfalse => simp [hfalse]
      | inr hsome =>
        have hnone : (ssn.evictFn preemptee.UID).isNone = false := by
          cases he : ssn.evictFn preemptee.UID with
          | some e => rfl
          | none => rw [he] at hsome; simp at hsome
        simp [hnone]
    constructor
    · simp [hpd]
    · have hq := taskQueueOf_set_found st.preempteeTasks preempteeJob.UID
        (pteeQ.Push preemptee) hfound
      simp only [hpd, Bool.false_eq_true, if_false]
      exact hq
  · intro hpre hev
    have hpd : (ssn.Preemptable preemptor preemptee &&
        (ssn.evictFn preemptee.UID).isNone) = true := by
      simp [hpre, hev]
    constructor
    · simp [hpd]
    · have hq := taskQueueOf_set_found st.preempteeTasks preempteeJob.UID pteeQ hfound
      simp only [hpd, if_true]
      exact hq

theorem preempt_body_requeues_witness :
    (preemptBody baseSession jobC6a jobC6b pqJobEmpty pqJobEmpty stC6).preemptees =
      pqJobEmpty.Push jobC6b ∧
    (preemptBody baseSession jobC6a jobC6b pqJobEmpty pqJobEmpty stC6).preemptors =
      pqJobEmpty ∧
    taskQueueOf
        (preemptBody baseSession jobC6a jobC6b pqJobEmpty pqJobEmpty stC6).preempteeTasks
        "jb" = pqTaskEmpty.Push tkB :=
  have h := preempt_body_requeues baseSession jobC6a jobC6b pqJobEmpty pqJobEmpty stC6
    tkA tkB pqTaskEmpty pqTaskEmpty rfl rfl
  ⟨h.1, (h.2.1 (Or.inl rfl)).1, (h.2.1 (Or.inl rfl)).2⟩

end KubeArb

